import Mathlib

/-!
Shallow embedding of the ENVM1601 Central Basin Approach and Heuristic RTC
engines, with theorems checking the natural-language specification against
the code.  Machine reals are modelled by the rationals; fallible code
returns Option or Except.
-/

namespace ENVM1601

/- ## Mass-balance simulator: `Central_Basin_Approach.run_CAS_model` -/

/-- State threaded through the inflow loop of run_CAS_model:
the mutable locals available_storage, total_cso_volume and storage_tracked. -/
structure CASState where
  available_storage : ℚ
  total_cso_volume : ℚ
  storage_tracked : List ℚ
deriving Repr, DecidableEq

/-- One iteration of the `for inflow_t in inflow` loop of run_CAS_model.
In the overflow branch the source sets available_storage to 0 first and
only then subtracts it in the cumulative overflow update, exactly as the
Python statement order does. -/
def CAS_step (total_system_volume wwtp_capacity time_step : ℚ)
    (s : CASState) (inflow_t : ℚ) : CASState :=
  if inflow_t * time_step > wwtp_capacity * time_step + s.available_storage then
    let available_storage : ℚ := 0
    { available_storage := available_storage
      total_cso_volume := s.total_cso_volume +
        (inflow_t * time_step - wwtp_capacity * time_step - available_storage)
      storage_tracked := s.storage_tracked ++ [available_storage] }
  else
    let available_storage : ℚ :=
      min (s.available_storage + wwtp_capacity * time_step - inflow_t * time_step)
        total_system_volume
    { available_storage := available_storage
      total_cso_volume := s.total_cso_volume
      storage_tracked := s.storage_tracked ++ [available_storage] }

/-- Embedding of run_CAS_model: available_storage starts at self.total_system_volume,
the loop runs over the inflow list, and the pair
(total_cso_volume, storage_tracked) is returned. -/
def run_CAS_model (total_system_volume wwtp_capacity : ℚ)
    (inflow : List ℚ) (time_step : ℚ) : ℚ × List ℚ :=
  let final := inflow.foldl (CAS_step total_system_volume wwtp_capacity time_step)
    { available_storage := total_system_volume
      total_cso_volume := 0
      storage_tracked := [] }
  (final.total_cso_volume, final.storage_tracked)

/- ## Volume-curve integrator and model builder: `create_CAS_model` -/

/-- Loop of create_CAS_model over a tabular storage curve: `sp` is the
running cumulative depth, `volume` the running trapezoidal sum, and the
list holds the remaining (depth, area) rows of the curve.  Running out of
rows before the threshold is reached is the IndexError of the source,
modelled as none. -/
def integrate_loop (depth_threshold : ℚ) :
    ℚ → ℚ → List (ℚ × ℚ) → Option ℚ
  | sp, volume, rows =>
    if sp < depth_threshold then
      match rows with
      | (d0, a0) :: (d1, a1) :: rest =>
        integrate_loop depth_threshold (sp + (d1 - d0))
          (volume + ((a0 + a1) / 2) * (d1 - d0)) ((d1, a1) :: rest)
      | _ => none
    else some volume

/-- Trapezoidal volume below depth_threshold for a tabular curve, as the
while loop of create_CAS_model computes it with sp = 0, volume = 0. -/
def integrate (curve : List (ℚ × ℚ)) (depth_threshold : ℚ) : Option ℚ :=
  integrate_loop depth_threshold 0 0 curve

/-- Geometry of a storage line of the model file: either TABULAR with a
curve name in field 5, or a functional line whose field 5 is a constant
cross-sectional area. -/
inductive StorGeom where
  | tabular (curveName : String)
  | prismatic (area : ℚ)
deriving Repr, DecidableEq

/-- Parsed content of the model file as create_CAS_model reads it: the
storage lines keyed by node name, and the curve rows keyed by curve name. -/
structure INPModel where
  storageNodes : List (String × StorGeom)
  curves : List (String × List (ℚ × ℚ))
deriving Repr, DecidableEq

/-- Resolution of one storage spec (name, depth threshold) to a volume.
A missing storage line, a missing curve, or a curve too short for the
threshold is the IndexError of the source, modelled as none. -/
def resolve_volume (m : INPModel) (name : String) (depth_threshold : ℚ) :
    Option ℚ :=
  match m.storageNodes.lookup name with
  | none => none
  | some (StorGeom.tabular c) =>
    match m.curves.lookup c with
    | none => none
    | some rows => integrate rows depth_threshold
  | some (StorGeom.prismatic area) => some (depth_threshold * area)

/-- Loop of create_CAS_model over the storage specs.  The second
component is the value of the field self.total_system_volume when the
call ends: it is set to 0 before the loop and incremented after each
spec resolves, so on failure it still holds the sum accumulated so far. -/
def create_CAS_model (m : INPModel) :
    List (String × ℚ) → ℚ → Option ℚ × ℚ
  | [], total_system_volume => (some total_system_volume, total_system_volume)
  | spec :: rest, total_system_volume =>
    match resolve_volume m spec.1 spec.2 with
    | none => (none, total_system_volume)
    | some volume => create_CAS_model m rest (total_system_volume + volume)

/- ## Heuristic rule engine: `HeuristicRTC.run_model` -/

/-- One rule list entry of the rule dictionary: observed node, depth
threshold, pump target setting and a direction string. -/
structure Rule where
  node : String
  threshold : ℚ
  setting : ℚ
  direction : String
deriving Repr, DecidableEq

/-- Lower-casing of a string as the Python str.lower call does it,
written as a map over the character list so concrete instances
evaluate; this is what String.toLower of the library computes. -/
def lower_str (s : String) : String :=
  String.mk (s.data.map Char.toLower)

/-- String fields of a rule, lower-cased: the source builds
[d.lower() for d in rule if isinstance(d, str)], and for a 4-entry rule
the string entries are the node name and the direction word. -/
def ruleStrings (r : Rule) : List String :=
  [lower_str r.node, lower_str r.direction]

/-- Membership test of the higher branch of run_model. -/
def rule_is_higher (r : Rule) : Bool :=
  (ruleStrings r).contains "higher"

/-- Membership test of the lower branch of run_model. -/
def rule_is_lower (r : Rule) : Bool :=
  (ruleStrings r).contains "lower"

/-- Whether a rule changes the target setting at the given depth
snapshot, following the if / elif order of the source: the higher branch
is tried first, the lower branch only when the higher test fails, and a
rule with neither word is skipped. -/
def rule_fires (depth : String → ℚ) (r : Rule) : Bool :=
  if rule_is_higher r then decide (depth r.node > r.threshold)
  else if rule_is_lower r then decide (depth r.node ≤ r.threshold)
  else false

/-- Application of one rule to the pending target setting of a pump. -/
def apply_rule (depth : String → ℚ) (current : ℚ) (r : Rule) : ℚ :=
  if rule_is_higher r then
    if depth r.node > r.threshold then r.setting else current
  else if rule_is_lower r then
    if depth r.node ≤ r.threshold then r.setting else current
  else current

/-- Application of one pump's rule list in order, starting from the
pump's current target setting. -/
def apply_rules (depth : String → ℚ) (rules : List Rule) (current : ℚ) : ℚ :=
  rules.foldl (apply_rule depth) current

/-- One control step of run_model over the list of pumps: each pump's
rules are looked up in the rule dictionary and applied to its setting;
a pump absent from the dictionary aborts the step with the
AttributeError message of the source handed back to the caller. -/
def run_model_step (depth : String → ℚ)
    (rule_dictionary : String → Option (List Rule)) :
    List String → (String → ℚ) → Except String (String → ℚ)
  | [], settings => Except.ok settings
  | pump :: rest, settings =>
    match rule_dictionary pump with
    | none =>
      Except.error ("Pump " ++ pump ++ " Not Specified in Rules, please add")
    | some rules =>
      run_model_step depth rule_dictionary rest
        (fun q => if q = pump then apply_rules depth rules (settings pump)
                  else settings q)

/- ## Helper lemmas on the mass-balance step -/

/-- Shape of the overflow branch of CAS_step. -/
lemma CAS_step_overflow (tsv w ts q : ℚ) (s : CASState)
    (h : q * ts > w * ts + s.available_storage) :
    CAS_step tsv w ts s q =
      { available_storage := 0
        total_cso_volume := s.total_cso_volume + (q * ts - w * ts - 0)
        storage_tracked := s.storage_tracked ++ [0] } := by
  simp [CAS_step, if_pos h]

/-- Shape of the non-overflow branch of CAS_step. -/
lemma CAS_step_no_overflow (tsv w ts q : ℚ) (s : CASState)
    (h : ¬ q * ts > w * ts + s.available_storage) :
    CAS_step tsv w ts s q =
      { available_storage := min (s.available_storage + w * ts - q * ts) tsv
        total_cso_volume := s.total_cso_volume
        storage_tracked :=
          s.storage_tracked ++ [min (s.available_storage + w * ts - q * ts) tsv] } := by
  simp [CAS_step, if_neg h]

/-- After any step the available storage lies in [0, capacity],
whatever the incoming state was. -/
lemma CAS_step_avail_bounds (tsv w ts q : ℚ) (s : CASState) (hcap : 0 ≤ tsv) :
    0 ≤ (CAS_step tsv w ts s q).available_storage ∧
      (CAS_step tsv w ts s q).available_storage ≤ tsv := by
  by_cases h : q * ts > w * ts + s.available_storage
  · rw [CAS_step_overflow tsv w ts q s h]
    exact ⟨le_refl 0, hcap⟩
  · rw [CAS_step_no_overflow tsv w ts q s h]
    refine ⟨le_min (by push_neg at h; linarith) hcap, min_le_right _ _⟩

/-- A step never decreases the cumulative overflow when the incoming
available storage is non-negative. -/
lemma CAS_step_total_mono (tsv w ts q : ℚ) (s : CASState)
    (h0 : 0 ≤ s.available_storage) :
    s.total_cso_volume ≤ (CAS_step tsv w ts s q).total_cso_volume := by
  by_cases h : q * ts > w * ts + s.available_storage
  · rw [CAS_step_overflow tsv w ts q s h]
    simp only
    linarith
  · rw [CAS_step_no_overflow tsv w ts q s h]

/-- A step appends exactly its new available storage to the trajectory. -/
lemma CAS_step_tracked (tsv w ts q : ℚ) (s : CASState) :
    (CAS_step tsv w ts s q).storage_tracked =
      s.storage_tracked ++ [(CAS_step tsv w ts s q).available_storage] := by
  by_cases h : q * ts > w * ts + s.available_storage
  · rw [CAS_step_overflow tsv w ts q s h]
  · rw [CAS_step_no_overflow tsv w ts q s h]

/-- The available storage of the folded state lies in [0, capacity]. -/
lemma CAS_foldl_avail_bounds (tsv w ts : ℚ) (l : List ℚ) (s : CASState)
    (hcap : 0 ≤ tsv) (h0 : 0 ≤ s.available_storage ∧ s.available_storage ≤ tsv) :
    0 ≤ (l.foldl (CAS_step tsv w ts) s).available_storage ∧
      (l.foldl (CAS_step tsv w ts) s).available_storage ≤ tsv := by
  induction l generalizing s with
  | nil => exact h0
  | cons a l ih =>
    exact ih (CAS_step tsv w ts s a) (CAS_step_avail_bounds tsv w ts a s hcap)

/-- Folding grows the trajectory by exactly one entry per sample. -/
lemma CAS_foldl_tracked_len (tsv w ts : ℚ) (l : List ℚ) (s : CASState) :
    ((l.foldl (CAS_step tsv w ts) s).storage_tracked).length =
      s.storage_tracked.length + l.length := by
  induction l generalizing s with
  | nil => simp
  | cons a l ih =>
    rw [List.foldl_cons, ih (CAS_step tsv w ts s a), CAS_step_tracked]
    simp
    ring

/-- Every trajectory entry added by the fold lies in [0, capacity]. -/
lemma CAS_foldl_tracked_mem (tsv w ts : ℚ) (l : List ℚ) (s : CASState)
    (hcap : 0 ≤ tsv) :
    ∀ v ∈ (l.foldl (CAS_step tsv w ts) s).storage_tracked,
      v ∈ s.storage_tracked ∨ (0 ≤ v ∧ v ≤ tsv) := by
  induction l generalizing s with
  | nil => exact fun v hv => Or.inl hv
  | cons a l ih =>
    intro v hv
    rcases ih (CAS_step tsv w ts s a) v hv with hmem | hb
    · rw [CAS_step_tracked] at hmem
      rcases List.mem_append.mp hmem with hmem1 | hmem2
      · exact Or.inl hmem1
      · rcases List.mem_singleton.mp hmem2 with rfl
        exact Or.inr (CAS_step_avail_bounds tsv w ts a s hcap)
    · exact Or.inr hb

/-- Folding never decreases the cumulative overflow, provided the
incoming available storage is non-negative and the capacity is. -/
lemma CAS_foldl_total_mono (tsv w ts : ℚ) (l : List ℚ) (s : CASState)
    (hcap : 0 ≤ tsv) (h0 : 0 ≤ s.available_storage ∧ s.available_storage ≤ tsv) :
    s.total_cso_volume ≤ (l.foldl (CAS_step tsv w ts) s).total_cso_volume := by
  induction l generalizing s with
  | nil => exact le_refl _
  | cons a l ih =>
    calc s.total_cso_volume
        ≤ (CAS_step tsv w ts s a).total_cso_volume :=
          CAS_step_total_mono tsv w ts a s h0.1
      _ ≤ ((a :: l).foldl (CAS_step tsv w ts) s).total_cso_volume := by
          rw [List.foldl_cons]
          exact ih (CAS_step tsv w ts s a) (CAS_step_avail_bounds tsv w ts a s hcap)

/- ## Claim theorems for the mass-balance simulator -/

/-- Claim C1 is false on the code: with capacity 100, throughput 0,
time_step 1 and inflow [50, 80], run_CAS_model returns an overflow of 80,
not the 30 the claim computes from the pre-reset available storage. -/
theorem run_CAS_scenarioB_overflow_not_30 :
    (run_CAS_model 100 0 [50, 80] 1).1 ≠ 30 ∧
      (run_CAS_model 100 0 [50, 80] 1).1 = 80 := by
  constructor
  · simp [run_CAS_model, CAS_step]
    norm_num
  · simp [run_CAS_model, CAS_step]
    norm_num

/-- Claim C1 (amended): the overflow branch subtracts the post-reset
value of available_storage, which is 0, so the amount added is
demand - drain - 0; in particular the scenario with capacity 100,
throughput 0, time_step 1, inflow [50, 80] returns overflow 80. -/
theorem overflow_subtracts_postreset_storage (tsv w ts q : ℚ) (s : CASState)
    (h : q * ts > w * ts + s.available_storage) :
    (CAS_step tsv w ts s q).available_storage = 0 ∧
      (CAS_step tsv w ts s q).total_cso_volume =
        s.total_cso_volume +
          (q * ts - w * ts - (CAS_step tsv w ts s q).available_storage) ∧
      (run_CAS_model 100 0 [50, 80] 1).1 = 80 := by
  rw [CAS_step_overflow tsv w ts q s h]
  refine ⟨rfl, rfl, ?_⟩
  simp [run_CAS_model, CAS_step]
  norm_num

/-- Witness for the amended claim C1 at a concrete overflowing step. -/
theorem overflow_subtracts_postreset_storage_witness :
    (CAS_step 100 0 1 ⟨50, 0, [50]⟩ 80).available_storage = 0 ∧
      (CAS_step 100 0 1 ⟨50, 0, [50]⟩ 80).total_cso_volume =
        (0 : ℚ) + (80 * 1 - 0 * 1 -
          (CAS_step 100 0 1 ⟨50, 0, [50]⟩ 80).available_storage) ∧
      (run_CAS_model 100 0 [50, 80] 1).1 = 80 :=
  overflow_subtracts_postreset_storage 100 0 1 80 ⟨50, 0, [50]⟩ (by norm_num)

/-- Claim C2: every overflow increment equals demand - drain, a
state-independent quantity, because available_storage is zeroed before
the subtraction. -/
theorem overflow_increment_state_independent (tsv w ts q : ℚ) (s : CASState)
    (h : q * ts > w * ts + s.available_storage) :
    (CAS_step tsv w ts s q).total_cso_volume - s.total_cso_volume =
      (q - w) * ts := by
  rw [CAS_step_overflow tsv w ts q s h]
  simp only
  ring

/-- Witness for claim C2 at a concrete overflowing step. -/
theorem overflow_increment_state_independent_witness :
    (CAS_step 100 0 1 ⟨50, 0, [50]⟩ 80).total_cso_volume - (0 : ℚ) =
      (80 - 0) * 1 :=
  overflow_increment_state_independent 100 0 1 80 ⟨50, 0, [50]⟩ (by norm_num)

/-- Claim C4: with non-negative capacity, throughput and inflow and a
positive time step, the returned trajectory has one entry per inflow
sample and every entry lies in [0, capacity]. -/
theorem storage_trajectory_in_bounds (tsv w ts : ℚ) (inflow : List ℚ)
    (hcap : 0 ≤ tsv) (hw : 0 ≤ w) (hts : 0 < ts)
    (hin : ∀ q ∈ inflow, 0 ≤ q) :
    (run_CAS_model tsv w inflow ts).2.length = inflow.length ∧
      ∀ v ∈ (run_CAS_model tsv w inflow ts).2, 0 ≤ v ∧ v ≤ tsv := by
  constructor
  · have := CAS_foldl_tracked_len tsv w ts inflow
      ⟨tsv, 0, []⟩
    simpa [run_CAS_model] using this
  · intro v hv
    have hmem := CAS_foldl_tracked_mem tsv w ts inflow
      ⟨tsv, 0, []⟩ hcap v (by simpa [run_CAS_model] using hv)
    rcases hmem with hfalse | hb
    · simp at hfalse
    · exact hb

/-- Witness for claim C4 on a concrete run. -/
theorem storage_trajectory_in_bounds_witness :
    (0 : ℚ) ≤ 100 ∧
      ((run_CAS_model 100 0 [50, 80] 1).2.length = ([50, 80] : List ℚ).length ∧
        ∀ v ∈ (run_CAS_model 100 0 [50, 80] 1).2, 0 ≤ v ∧ v ≤ 100) :=
  ⟨by norm_num,
    storage_trajectory_in_bounds 100 0 1 [50, 80] (by norm_num) (by norm_num)
      (by norm_num) (by intro q hq; simp only [List.mem_cons, List.not_mem_nil, or_false] at hq; rcases hq with rfl | rfl <;> norm_num)⟩

/-- Claim C5: cumulative overflow after processing one more inflow
sample is at least the cumulative overflow before it, for every prefix
length k. -/
theorem cumulative_overflow_monotone (tsv w ts : ℚ) (inflow : List ℚ) (k : ℕ)
    (hcap : 0 ≤ tsv) (hw : 0 ≤ w) (hts : 0 < ts)
    (hin : ∀ q ∈ inflow, 0 ≤ q) :
    (run_CAS_model tsv w (inflow.take k) ts).1 ≤
      (run_CAS_model tsv w (inflow.take (k + 1)) ts).1 := by
  simp only [run_CAS_model]
  rw [List.take_succ, List.foldl_append]
  rcases inflow[k]? with _ | a
  · simp
  · simp only [Option.toList_some, List.foldl_cons, List.foldl_nil]
    exact CAS_step_total_mono tsv w ts a _
      (CAS_foldl_avail_bounds tsv w ts (inflow.take k)
        ⟨tsv, 0, []⟩ hcap ⟨hcap, le_refl tsv⟩).1

/-- Witness for claim C5 on a concrete run and prefix. -/
theorem cumulative_overflow_monotone_witness :
    (run_CAS_model 100 0 (([50, 80] : List ℚ).take 1) 1).1 ≤
      (run_CAS_model 100 0 (([50, 80] : List ℚ).take 2) 1).1 :=
  cumulative_overflow_monotone 100 0 1 [50, 80] 1 (by norm_num) (by norm_num)
    (by norm_num) (by intro q hq; simp only [List.mem_cons, List.not_mem_nil, or_false] at hq; rcases hq with rfl | rfl <;> norm_num)

/-- Claim C8 is false on the code: run_CAS_model has no input validation,
and an empty inflow with positive throughput and time step returns the
pair (0, empty trajectory) normally instead of aborting. -/
theorem run_CAS_empty_inflow_returns_normally :
    run_CAS_model 100 1 ([] : List ℚ) 1 = (0, []) := rfl

/-- Claim C8 (amended): run_CAS_model never aborts; in particular for
every capacity, throughput and time step, even non-positive ones, an
empty inflow yields the normal return (0, empty trajectory). -/
theorem run_CAS_no_input_validation (tsv w ts : ℚ) :
    run_CAS_model tsv w ([] : List ℚ) ts = (0, []) := rfl

/- ## Helper lemmas on the integrator loop -/

/-- The loop stops and returns the accumulated volume once the running
cumulative depth has reached the threshold. -/
lemma integrate_loop_done (t sp v : ℚ) (rows : List (ℚ × ℚ))
    (h : ¬ sp < t) : integrate_loop t sp v rows = some v := by
  conv_lhs => rw [integrate_loop.eq_def]
  exact if_neg h

/-- One pass of the loop over a fully available interval. -/
lemma integrate_loop_step (t sp v d0 a0 d1 a1 : ℚ) (rest : List (ℚ × ℚ))
    (h : sp < t) :
    integrate_loop t sp v ((d0, a0) :: (d1, a1) :: rest) =
      integrate_loop t (sp + (d1 - d0))
        (v + ((a0 + a1) / 2) * (d1 - d0)) ((d1, a1) :: rest) := by
  conv_lhs => rw [integrate_loop.eq_def]
  exact if_pos h

/- ## Claim theorems for the volume-curve integrator -/

/-- Claim C3: the integrator charges the interval containing the
threshold at its full trapezoidal width; hence the constant-area curve
[(0, A), (D, A)] integrates to exactly A * D for every threshold t with
0 < t ≤ D, and a threshold of 0 integrates to 0 on every curve. -/
theorem integrate_full_width_charge (A D t u sp v d0 a0 d1 a1 : ℚ)
    (rest : List (ℚ × ℚ)) (curve : List (ℚ × ℚ))
    (ht0 : 0 < t) (htD : t ≤ D)
    (hu1 : sp < u) (hu2 : u ≤ sp + (d1 - d0)) :
    integrate [(0, A), (D, A)] t = some (A * D) ∧
      integrate curve 0 = some 0 ∧
      integrate_loop u sp v ((d0, a0) :: (d1, a1) :: rest) =
        some (v + ((a0 + a1) / 2) * (d1 - d0)) := by
  refine ⟨?_, ?_, ?_⟩
  · show integrate_loop t 0 0 [(0, A), (D, A)] = some (A * D)
    rw [integrate_loop_step t 0 0 0 A D A [] ht0]
    rw [integrate_loop_done t (0 + (D - 0)) _ _ (not_lt.mpr (by linarith))]
    congr 1
    ring
  · exact integrate_loop_done 0 0 0 curve (lt_irrefl 0)
  · rw [integrate_loop_step u sp v d0 a0 d1 a1 rest hu1]
    exact integrate_loop_done u _ _ _ (not_lt.mpr (by linarith))

/-- Witness for claim C3 on a concrete curve and thresholds. -/
theorem integrate_full_width_charge_witness :
    integrate [(0, 2), (3, 2)] 1 = some (2 * 3) ∧
      integrate [(0, 5), (1, 7)] 0 = some 0 ∧
      integrate_loop 1 0 0 ((0, 4) :: (2, 6) :: []) =
        some (0 + ((4 + 6) / 2) * (2 - 0)) :=
  integrate_full_width_charge 2 3 1 1 0 0 0 4 2 6 [] [(0, 5), (1, 7)]
    (by norm_num) (by norm_num) (by norm_num) (by norm_num)

/- ## Claim theorems for the model builder -/

/-- Claim C9 is false on the code: with a model holding only the
prismatic node s1 of area 2, the spec list [(s1, 3), (s2, 1)] fails on
s2, yet the stored total_system_volume is left holding the partial sum
6 contributed by s1, not its pre-build value 0. -/
theorem create_CAS_partial_sum_counterexample :
    create_CAS_model
        ⟨[("s1", StorGeom.prismatic 2)], []⟩ [("s1", 3), ("s2", 1)] 0 =
      (none, 6) ∧ (6 : ℚ) ≠ 0 := by
  constructor
  · simp [create_CAS_model, resolve_volume, List.lookup]
    norm_num
  · norm_num

/-- Claim C9 (amended): when a spec fails to resolve, the whole build
fails (no total is returned), but the stored total_system_volume is left
holding the partial sum of the specs processed before the failing one. -/
theorem create_CAS_fails_with_partial_sum (m : INPModel)
    (pre rest : List (String × ℚ)) (bad : String × ℚ) (acc : ℚ)
    (hpre : ∀ s ∈ pre, (resolve_volume m s.1 s.2).isSome = true)
    (hbad : resolve_volume m bad.1 bad.2 = none) :
    (create_CAS_model m (pre ++ bad :: rest) acc).1 = none ∧
      (create_CAS_model m (pre ++ bad :: rest) acc).2 =
        acc + (pre.map (fun s => (resolve_volume m s.1 s.2).getD 0)).sum := by
  induction pre generalizing acc with
  | nil =>
    simp only [List.nil_append, List.map_nil, List.sum_nil, add_zero]
    rw [create_CAS_model, hbad]
    exact ⟨rfl, rfl⟩
  | cons s pre ih =>
    rcases hv : resolve_volume m s.1 s.2 with _ | v
    · have := hpre s (List.mem_cons_self s pre)
      rw [hv] at this
      simp at this
    · have hstep : create_CAS_model m ((s :: pre) ++ bad :: rest) acc =
          create_CAS_model m (pre ++ bad :: rest) (acc + v) := by
        rw [List.cons_append, create_CAS_model, hv]
      rw [hstep]
      have hrest := ih (acc + v) (fun x hx => hpre x (List.mem_cons_of_mem s hx))
      refine ⟨hrest.1, ?_⟩
      rw [hrest.2, List.map_cons, List.sum_cons, hv]
      simp only [Option.getD_some]
      ring

/-- Witness for the amended claim C9 on a concrete model and spec list. -/
theorem create_CAS_fails_with_partial_sum_witness :
    (create_CAS_model ⟨[("s1", StorGeom.prismatic 2)], []⟩
        ([("s1", 3)] ++ ("s2", 1) :: []) 0).1 = none ∧
      (create_CAS_model ⟨[("s1", StorGeom.prismatic 2)], []⟩
          ([("s1", 3)] ++ ("s2", 1) :: []) 0).2 =
        0 + (([("s1", 3)] : List (String × ℚ)).map
          (fun s => (resolve_volume ⟨[("s1", StorGeom.prismatic 2)], []⟩
            s.1 s.2).getD 0)).sum :=
  create_CAS_fails_with_partial_sum ⟨[("s1", StorGeom.prismatic 2)], []⟩
    [("s1", 3)] [] ("s2", 1) 0
    (by intro s hs; simp only [List.mem_singleton] at hs; subst hs;
        simp [resolve_volume, List.lookup])
    (by simp [resolve_volume, List.lookup])

/- ## Helper lemmas on the rule engine -/

/-- A rule either installs its target setting or leaves the pending
setting alone, according to rule_fires. -/
lemma apply_rule_fires (depth : String → ℚ) (current : ℚ) (r : Rule) :
    apply_rule depth current r =
      if rule_fires depth r then r.setting else current := by
  by_cases h1 : rule_is_higher r
  · by_cases h2 : depth r.node > r.threshold <;>
      simp [apply_rule, rule_fires, h1, h2]
  · by_cases h3 : rule_is_lower r
    · by_cases h4 : depth r.node ≤ r.threshold <;>
        simp [apply_rule, rule_fires, h1, h3, h4]
    · simp [apply_rule, rule_fires, h1, h3]

/-- A rule list none of whose rules fires leaves the setting unchanged. -/
lemma apply_rules_no_fire (depth : String → ℚ) (rules : List Rule)
    (current : ℚ) (h : ∀ x ∈ rules, rule_fires depth x = false) :
    apply_rules depth rules current = current := by
  induction rules generalizing current with
  | nil => rfl
  | cons r rules ih =>
    show (rules.foldl (apply_rule depth) (apply_rule depth current r)) = current
    have hr : apply_rule depth current r = current := by
      rw [apply_rule_fires, h r (List.mem_cons_self r rules)]
      simp
    rw [hr]
    exact ih current (fun x hx => h x (List.mem_cons_of_mem r hx))

/-- When every pump has an entry in the rule dictionary, the control
step runs to completion and returns updated settings. -/
lemma run_model_step_ok (depth : String → ℚ)
    (rule_dictionary : String → Option (List Rule))
    (pumps : List String) (settings : String → ℚ)
    (h : ∀ p ∈ pumps, (rule_dictionary p).isSome = true) :
    ∃ s, run_model_step depth rule_dictionary pumps settings =
      Except.ok s := by
  induction pumps generalizing settings with
  | nil => exact ⟨settings, rfl⟩
  | cons pump rest ih =>
    rcases hd : rule_dictionary pump with _ | rules
    · have := h pump (List.mem_cons_self pump rest)
      rw [hd] at this
      simp at this
    · obtain ⟨s, hs⟩ := ih
        (fun q => if q = pump then apply_rules depth rules (settings pump)
                  else settings q)
        (fun p hp => h p (List.mem_cons_of_mem pump hp))
      refine ⟨s, ?_⟩
      simp only [run_model_step]
      rw [hd]
      exact hs

/- ## Claim theorems for the rule engine -/

/-- Claim C6: if none of an actuator's rules matches the depth snapshot
the setting is left unchanged from its current value, and when several
rules match, the last matching rule's target setting is the one in
effect. -/
theorem rules_sticky_and_last_match_wins (depth : String → ℚ)
    (rules l1 l2 : List Rule) (r : Rule) (current : ℚ)
    (hnone : ∀ x ∈ rules, rule_fires depth x = false)
    (hr : rule_fires depth r = true)
    (hl2 : ∀ x ∈ l2, rule_fires depth x = false) :
    apply_rules depth rules current = current ∧
      apply_rules depth (l1 ++ r :: l2) current = r.setting := by
  refine ⟨apply_rules_no_fire depth rules current hnone, ?_⟩
  show ((l1 ++ r :: l2).foldl (apply_rule depth) current) = r.setting
  rw [List.foldl_append, List.foldl_cons]
  have hfire : apply_rule depth (l1.foldl (apply_rule depth) current) r =
      r.setting := by
    rw [apply_rule_fires, hr]
    simp
  rw [hfire]
  exact apply_rules_no_fire depth l2 r.setting hl2

/-- Witness for claim C6 on a concrete snapshot and rule lists. -/
theorem rules_sticky_and_last_match_wins_witness :
    apply_rules (fun _ => (5 : ℚ)) [⟨"n1", 10, 1, "higher"⟩] 0 = 0 ∧
      apply_rules (fun _ => (5 : ℚ))
        ([⟨"n1", 1, 0, "lower"⟩] ++ ⟨"n1", 2, 1, "higher"⟩ ::
          [⟨"n1", 3, 0, "lower"⟩]) 0 = 1 :=
  rules_sticky_and_last_match_wins (fun _ => (5 : ℚ))
    [⟨"n1", 10, 1, "higher"⟩] [⟨"n1", 1, 0, "lower"⟩] [⟨"n1", 3, 0, "lower"⟩]
    ⟨"n1", 2, 1, "higher"⟩ 0 (by decide) (by decide) (by decide)

/-- Claim C7: a pump enumerated from the hydraulic model but absent from
the rule dictionary makes the control step abort with the error message
naming a missing pump, instead of the simulation continuing. -/
theorem missing_pump_aborts_with_name (depth : String → ℚ)
    (rule_dictionary : String → Option (List Rule))
    (pumps : List String) (settings : String → ℚ) (p : String)
    (hp : p ∈ pumps) (hmiss : rule_dictionary p = none) :
    ∃ p2, p2 ∈ pumps ∧ rule_dictionary p2 = none ∧
      run_model_step depth rule_dictionary pumps settings =
        Except.error ("Pump " ++ p2 ++ " Not Specified in Rules, please add") := by
  induction pumps generalizing settings with
  | nil => simp at hp
  | cons pump rest ih =>
    rcases hd : rule_dictionary pump with _ | rules
    · refine ⟨pump, List.mem_cons_self pump rest, hd, ?_⟩
      simp only [run_model_step]
      rw [hd]
    · have hpr : p ∈ rest := by
        rcases List.mem_cons.mp hp with rfl | hmem
        · rw [hmiss] at hd
          exact absurd hd (by simp)
        · exact hmem
      obtain ⟨p2, hp2, hmiss2, heq⟩ := ih
        (fun q => if q = pump then apply_rules depth rules (settings pump)
                  else settings q) hpr
      refine ⟨p2, List.mem_cons_of_mem pump hp2, hmiss2, ?_⟩
      simp only [run_model_step]
      rw [hd]
      exact heq

/-- Witness for claim C7 with a one-pump system and an empty dictionary. -/
theorem missing_pump_aborts_with_name_witness :
    ∃ p2, p2 ∈ ["p1"] ∧ (fun _ : String => (none : Option (List Rule))) p2 = none ∧
      run_model_step (fun _ => (0 : ℚ)) (fun _ => none) ["p1"] (fun _ => 0) =
        Except.error ("Pump " ++ p2 ++ " Not Specified in Rules, please add") :=
  missing_pump_aborts_with_name (fun _ => (0 : ℚ)) (fun _ => none) ["p1"]
    (fun _ => 0) "p1" (by simp) rfl

/-- Claim C10: a rule whose lower-cased string fields are neither
higher nor lower is silently skipped: it never changes the pending
setting, removing it from the list changes nothing, and the control
step still completes without an error. -/
theorem unknown_direction_silently_skipped (depth : String → ℚ) (r : Rule)
    (l1 l2 : List Rule) (current : ℚ) (pumps : List String)
    (settings : String → ℚ)
    (h1 : lower_str r.node ≠ "higher") (h2 : lower_str r.direction ≠ "higher")
    (h3 : lower_str r.node ≠ "lower") (h4 : lower_str r.direction ≠ "lower") :
    apply_rule depth current r = current ∧
      apply_rules depth (l1 ++ r :: l2) current =
        apply_rules depth (l1 ++ l2) current ∧
      ∃ s, run_model_step depth (fun _ => some (l1 ++ r :: l2)) pumps settings =
        Except.ok s := by
  have hh : rule_is_higher r = false := by
    simp only [rule_is_higher, ruleStrings]
    simp
    exact ⟨Ne.symm h1, Ne.symm h2⟩
  have hl : rule_is_lower r = false := by
    simp only [rule_is_lower, ruleStrings]
    simp
    exact ⟨Ne.symm h3, Ne.symm h4⟩
  have hskip : ∀ c : ℚ, apply_rule depth c r = c := by
    intro c
    simp [apply_rule, hh, hl]
  refine ⟨hskip current, ?_, ?_⟩
  · show ((l1 ++ r :: l2).foldl (apply_rule depth) current) =
      ((l1 ++ l2).foldl (apply_rule depth) current)
    rw [List.foldl_append, List.foldl_cons, hskip, ← List.foldl_append]
  · exact run_model_step_ok depth _ pumps settings (fun p _ => rfl)

/-- Witness for claim C10 with a misspelled direction word. -/
theorem unknown_direction_silently_skipped_witness :
    apply_rule (fun _ => (5 : ℚ)) 0 ⟨"n1", 2, 1, "above"⟩ = 0 ∧
      apply_rules (fun _ => (5 : ℚ))
        ([⟨"n1", 2, 7, "higher"⟩] ++ ⟨"n1", 2, 1, "above"⟩ :: []) 0 =
        apply_rules (fun _ => (5 : ℚ)) ([⟨"n1", 2, 7, "higher"⟩] ++ []) 0 ∧
      ∃ s, run_model_step (fun _ => (5 : ℚ))
        (fun _ => some ([⟨"n1", 2, 7, "higher"⟩] ++ ⟨"n1", 2, 1, "above"⟩ :: []))
        ["p1"] (fun _ => 0) = Except.ok s :=
  unknown_direction_silently_skipped (fun _ => (5 : ℚ)) ⟨"n1", 2, 1, "above"⟩
    [⟨"n1", 2, 7, "higher"⟩] [] 0 ["p1"] (fun _ => 0)
    (by decide) (by decide) (by decide) (by decide)

end ENVM1601
